import Mathlib

/-
Verification of the toydb storage engine: a shallow embedding of the pager,
the B+-tree node layout, search, insertion with leaf split and root
promotion, the cursor scan, the record codec, and the statement parser.

Conventions of the embedding:
* A page is a total byte map `Nat → Nat`; every write masks its value with
  `% 256`, mirroring the byte-array stores of the Go code, and multi-byte
  fields use explicit little-endian encode/decode as `binary.LittleEndian`
  does.  Page buffers in Go are mutated in place through slices aliasing the
  pager cache; the embedding threads that state explicitly, writing a page
  value back into the pager cache at the points where the Go code's
  mutations become visible there (which is immediately).
* Go functions that return `error` values, and Go runtime panics (array
  index out of range, `panic(...)` calls), are distinguished: the REPL layer
  catches returned errors but a panic aborts the process.  `Res α` has an
  `ok`, an `err` and an `abort` constructor for the three outcomes.
* Loops are primitive recursion on an explicit bound where Go uses counted
  loops, and fuel where Go recursion has no structural bound
  (`internalNodeFind`, the `select` scan); exhausted fuel is reported with
  a distinguished outcome and the termination theorems show the fuel
  bounds used are sufficient.
* The `ghostSplits` / `ghostNewRoots` fields of `Table` are ghost
  instrumentation counters (how many leaf splits / root promotions have
  run); no code path reads them, they only let theorems count events.

The package `toydb/constants` is not among the source files.  Its values
are modelled from the spec: 4096-byte pages, `TABLE_MAX_PAGES = 100`,
column widths 32 and 255, row size 291 — the same values the earlier
checkpoint in `main.go` declares.
-/

/-- Modelled from the spec: `toydb/constants` (the package itself is not in
the source tree; spec §3, §4.2 fix page size 4096, 100 page-cache slots,
username 32 bytes, email 255 bytes, row size 291). -/
def PAGE_SIZE : Nat := 4096

def TABLE_MAX_PAGES : Nat := 100

def COLUMN_USERNAME_SIZE : Nat := 32

def COLUMN_EMAIL_SIZE : Nat := 255

def ID_SIZE : Nat := 4

def ROW_SIZE : Nat := ID_SIZE + COLUMN_USERNAME_SIZE + COLUMN_EMAIL_SIZE

/- Offsets within a serialized row (main program, "hardcoded DB" block). -/
def ID_OFFSET : Nat := 0

def USERNAME_OFFSET : Nat := ID_OFFSET + ID_SIZE

def EMAIL_OFFSET : Nat := USERNAME_OFFSET + COLUMN_USERNAME_SIZE

/- Common node header layout (btree package). -/
def NODE_TYPE_OFFSET : Nat := 0

def IS_ROOT_OFFSET : Nat := 1

def PARENT_POINTER_OFFSET : Nat := 2

def COMMON_NODE_HEADER_SIZE : Nat := 6

/- Leaf node layout (btree package). -/
def LEAF_NODE_NUM_CELLS_OFFSET : Nat := COMMON_NODE_HEADER_SIZE

def LEAF_NODE_HEADER_SIZE : Nat := COMMON_NODE_HEADER_SIZE + 4

def LEAF_NODE_KEY_SIZE : Nat := 4

def LEAF_NODE_VALUE_SIZE : Nat := ROW_SIZE

def LEAF_NODE_CELL_SIZE : Nat := LEAF_NODE_KEY_SIZE + LEAF_NODE_VALUE_SIZE

def LEAF_NODE_SPACE_FOR_CELLS : Nat := PAGE_SIZE - LEAF_NODE_HEADER_SIZE

def LEAF_NODE_MAX_CELLS : Nat := LEAF_NODE_SPACE_FOR_CELLS / LEAF_NODE_CELL_SIZE

def LEAF_NODE_RIGHT_SPLIT_COUNT : Nat := (LEAF_NODE_MAX_CELLS + 1) / 2

def LEAF_NODE_LEFT_SPLIT_COUNT : Nat :=
  (LEAF_NODE_MAX_CELLS + 1) - LEAF_NODE_RIGHT_SPLIT_COUNT

/- Internal node layout (btree package). -/
def INTERNAL_NODE_NUM_KEYS_OFFSET : Nat := COMMON_NODE_HEADER_SIZE

def INTERNAL_NODE_RIGHT_CHILD_OFFSET : Nat := INTERNAL_NODE_NUM_KEYS_OFFSET + 4

def INTERNAL_NODE_HEADER_SIZE : Nat := COMMON_NODE_HEADER_SIZE + 4 + 4

def INTERNAL_NODE_CHILD_SIZE : Nat := 4

def INTERNAL_NODE_KEY_SIZE : Nat := 4

def INTERNAL_NODE_CELL_SIZE : Nat := INTERNAL_NODE_CHILD_SIZE + INTERNAL_NODE_KEY_SIZE

/-- A page buffer: byte index to byte value.  Stored bytes are `< 256`
because every write masks with `% 256`. -/
abbrev Page := Nat → Nat

/-- The all-zero page, as Go's `make([]byte, PAGE_SIZE)` yields. -/
def zeroPage : Page := fun _ => 0

/-- `binary.LittleEndian.Uint32(p[off:])`. -/
def readU32 (p : Page) (off : Nat) : Nat :=
  p off + 256 * p (off + 1) + 65536 * p (off + 2) + 16777216 * p (off + 3)

/-- `binary.LittleEndian.PutUint32(p[off:], v)`: four byte stores. -/
def writeU32 (p : Page) (off v : Nat) : Page := fun i =>
  if i = off then v % 256
  else if i = off + 1 then v / 256 % 256
  else if i = off + 2 then v / 65536 % 256
  else if i = off + 3 then v / 16777216 % 256
  else p i

/-- `copy(p[off:off+bs.length], bs)` for a byte list `bs`. -/
def writeBytes (p : Page) (off : Nat) (bs : List Nat) : Page := fun i =>
  if off ≤ i ∧ i < off + bs.length then bs.getD (i - off) 0 % 256 else p i

/-- `copy(dst[dstOff:dstOff+len], src[srcOff:srcOff+len])` between two
page buffers (possibly the same one; the Go code only ever copies between
non-overlapping ranges). -/
def copyRange (dst src : Page) (dstOff srcOff len : Nat) : Page := fun i =>
  if dstOff ≤ i ∧ i < dstOff + len then src (srcOff + (i - dstOff)) else dst i

/- btree node accessors.  `NODE_INTERNAL = 0`, `NODE_LEAF = 1`. -/

def NODE_INTERNAL : Nat := 0

def NODE_LEAF : Nat := 1

/-- `GetNodeType`: the kind byte. -/
def GetNodeType (p : Page) : Nat := p NODE_TYPE_OFFSET

/-- `SetNodeType`. -/
def SetNodeType (p : Page) (t : Nat) : Page := fun i =>
  if i = NODE_TYPE_OFFSET then t % 256 else p i

/-- `IsNodeRoot`: `node[IS_ROOT_OFFSET] != 0`. -/
def IsNodeRoot (p : Page) : Bool := p IS_ROOT_OFFSET != 0

/-- `SetNodeRoot`. -/
def SetNodeRoot (p : Page) (b : Bool) : Page := fun i =>
  if i = IS_ROOT_OFFSET then (if b then 1 else 0) else p i

/-- `nodeParent` (main program): the parent-pointer field. -/
def nodeParent (p : Page) : Nat := readU32 p PARENT_POINTER_OFFSET

/-- `setNodeParent` (main program). -/
def setNodeParent (p : Page) (parent : Nat) : Page :=
  writeU32 p PARENT_POINTER_OFFSET parent

/-- `LeafNodeNumCells`. -/
def LeafNodeNumCells (p : Page) : Nat := readU32 p LEAF_NODE_NUM_CELLS_OFFSET

/-- `SetLeafNodeNumCells`. -/
def SetLeafNodeNumCells (p : Page) (n : Nat) : Page :=
  writeU32 p LEAF_NODE_NUM_CELLS_OFFSET n

/-- Offset of leaf cell `c` (`LeafNodeCell` computes this slice start). -/
def leafCellOff (c : Nat) : Nat := LEAF_NODE_HEADER_SIZE + c * LEAF_NODE_CELL_SIZE

/-- `LeafNodeKey`. -/
def LeafNodeKey (p : Page) (c : Nat) : Nat := readU32 p (leafCellOff c)

/-- `SetLeafNodeKey`. -/
def SetLeafNodeKey (p : Page) (c k : Nat) : Page := writeU32 p (leafCellOff c) k

/-- Offset of the value part of leaf cell `c` (`LeafNodeValue` slice start). -/
def leafValueOff (c : Nat) : Nat := leafCellOff c + LEAF_NODE_KEY_SIZE

/-- `InitializeLeafNode`: kind = leaf, is-root = false, 0 cells.
(Go name `InitializeLeafNode`; shortened here.) -/
def initLeafNode (p : Page) : Page :=
  SetLeafNodeNumCells (SetNodeRoot (SetNodeType p NODE_LEAF) false) 0

/-- `InternalNodeNumKeys`. -/
def InternalNodeNumKeys (p : Page) : Nat := readU32 p INTERNAL_NODE_NUM_KEYS_OFFSET

/-- `SetInternalNodeNumKeys`. -/
def SetInternalNodeNumKeys (p : Page) (n : Nat) : Page :=
  writeU32 p INTERNAL_NODE_NUM_KEYS_OFFSET n

/-- `InternalNodeRightChild`. -/
def InternalNodeRightChild (p : Page) : Nat :=
  readU32 p INTERNAL_NODE_RIGHT_CHILD_OFFSET

/-- `SetInternalNodeRightChild`. -/
def SetInternalNodeRightChild (p : Page) (v : Nat) : Page :=
  writeU32 p INTERNAL_NODE_RIGHT_CHILD_OFFSET v

/-- Offset of internal cell `c` (`InternalNodeCell` slice start). -/
def internalCellOff (c : Nat) : Nat :=
  INTERNAL_NODE_HEADER_SIZE + c * INTERNAL_NODE_CELL_SIZE

/-- `InternalNodeKey`. -/
def InternalNodeKey (p : Page) (c : Nat) : Nat :=
  readU32 p (internalCellOff c + INTERNAL_NODE_CHILD_SIZE)

/-- `SetInternalNodeKey`. -/
def SetInternalNodeKey (p : Page) (c k : Nat) : Page :=
  writeU32 p (internalCellOff c + INTERNAL_NODE_CHILD_SIZE) k

/-- `InitializeInternalNode`: kind = internal, is-root = false, 0 keys.
(Go name `InitializeInternalNode`; shortened here.) -/
def initInternalNode (p : Page) : Page :=
  SetInternalNodeNumKeys (SetNodeRoot (SetNodeType p NODE_INTERNAL) false) 0

/- Outcome of a Go computation: a value, a returned `error`, or a runtime
abort (panic). -/

/-- The `error` values the modelled code returns (`fmt.Errorf` sites). -/
inductive GoError where
  | pageOutOfBounds
  | corruptFile
  | unknownNodeType
  | updateParentUnimplemented
  deriving DecidableEq, Repr

/-- Runtime aborts: Go panics (index out of range, explicit `panic`),
plus exhausted fuel standing for recursion with no reachable bound. -/
inductive AbortKind where
  | indexOutOfRange
  | unknownNodeTypeMaxKey
  | childIndexTooLarge
  | outOfFuel
  deriving DecidableEq, Repr

/-- Outcome of a Go computation. -/
inductive Res (α : Type) where
  | ok (a : α)
  | err (e : GoError)
  | abort (k : AbortKind)
  deriving DecidableEq

instance : Monad Res where
  pure := Res.ok
  bind r f :=
    match r with
    | .ok a => f a
    | .err e => .err e
    | .abort k => .abort k

/-- `true` exactly on `ok`. -/
def Res.isOk {α : Type} : Res α → Bool
  | .ok _ => true
  | _ => false

/-- `true` exactly on the `PageOutOfBounds` error. -/
def Res.isPageOOB {α : Type} : Res α → Bool
  | .err .pageOutOfBounds => true
  | _ => false

/-- `true` exactly on an abort (Go panic). -/
def Res.isAbort {α : Type} : Res α → Bool
  | .abort _ => true
  | _ => false

/-- `InternalNodeChild`: right child when `childNum = numKeys`, the cell's
left-child field when smaller, a panic when larger. -/
def InternalNodeChild (p : Page) (childNum : Nat) : Res Nat :=
  let numKeys := InternalNodeNumKeys p
  if childNum > numKeys then .abort .childIndexTooLarge
  else if childNum = numKeys then .ok (InternalNodeRightChild p)
  else .ok (readU32 p (internalCellOff childNum))

/-- `SetInternalNodeChild`. -/
def SetInternalNodeChild (p : Page) (childNum child : Nat) : Res Page :=
  let numKeys := InternalNodeNumKeys p
  if childNum > numKeys then .abort .childIndexTooLarge
  else if childNum = numKeys then .ok (SetInternalNodeRightChild p child)
  else .ok (writeU32 p (internalCellOff childNum) child)

/- The record codec. -/

/-- A row.  `username` and `email` stand for Go's fixed `[32]byte` /
`[255]byte` arrays; rows built by the program always carry lists of
exactly those lengths (`padTo` reifies the fixed width). -/
structure Row where
  id : Nat
  username : List Nat
  email : List Nat
  deriving DecidableEq, Repr

/-- A byte list as a fixed-width field: truncated or right-padded with
NULs to exactly `n` bytes, as storing into Go's fixed arrays yields. -/
def padTo (n : Nat) (bs : List Nat) : List Nat :=
  bs.take n ++ List.replicate (n - bs.length) 0

/-- `serializeRow(source, destination)` where the destination slice starts
at `off` in page `p`: id as little-endian u32, then the username bytes,
then the email bytes. -/
def serializeRow (source : Row) (p : Page) (off : Nat) : Page :=
  writeBytes
    (writeBytes (writeU32 p (off + ID_OFFSET) source.id)
      (off + USERNAME_OFFSET) (padTo COLUMN_USERNAME_SIZE source.username))
    (off + EMAIL_OFFSET) (padTo COLUMN_EMAIL_SIZE source.email)

/-- `deserializeRow(source, destination)` reading from offset `off`. -/
def deserializeRow (p : Page) (off : Nat) : Row :=
  { id := readU32 p (off + ID_OFFSET)
    username := (List.range COLUMN_USERNAME_SIZE).map fun i =>
      p (off + USERNAME_OFFSET + i)
    email := (List.range COLUMN_EMAIL_SIZE).map fun i =>
      p (off + EMAIL_OFFSET + i) }

/-- Trailing-NUL trimming, as `printRow` applies to the string fields. -/
def dropTrailingZeros (bs : List Nat) : List Nat :=
  (bs.reverse.dropWhile (· = 0)).reverse

/- The pager and the table. -/

/-- The pager: backing file (a pure byte map plus its measured length),
`numPages`, and the fixed 100-slot page cache (`Pages [TABLE_MAX_PAGES][]byte`;
a missing entry is Go's `nil` slot). -/
structure Pager where
  fileLength : Nat
  file : Nat → Nat
  numPages : Nat
  pages : Nat → Option Page

/-- The table, with two ghost event counters (see the header comment). -/
structure Table where
  rootPageNum : Nat
  pager : Pager
  ghostSplits : Nat
  ghostNewRoots : Nat

/-- A cursor (the `Table` pointer is threaded separately). -/
structure Cursor where
  pageNum : Nat
  cellNum : Nat
  endOfTable : Bool
  deriving DecidableEq, Repr

/-- Install page `pageNum` in the cache slot (the effect of Go's in-place
mutation through the aliasing slice returned by `getPage`). -/
def setPage (pg : Pager) (pageNum : Nat) (page : Page) : Pager :=
  { pg with pages := fun j => if j = pageNum then some page else pg.pages j }

/-- `(p *Pager) getPage(pageNum)`.  The bounds check uses `>`, so
`pageNum = TABLE_MAX_PAGES` passes it and the subsequent index into the
100-element cache array is a Go runtime panic.  A cache miss allocates a
zero page, fills it from the file when the page lies within the on-disk
extent (a short read leaves the tail zero), installs it, and bumps
`numPages` past `pageNum`. -/
def Pager.getPage (p : Pager) (pageNum : Nat) : Res (Page × Pager) :=
  if pageNum > TABLE_MAX_PAGES then .err .pageOutOfBounds
  else if TABLE_MAX_PAGES ≤ pageNum then .abort .indexOutOfRange
  else
    match p.pages pageNum with
    | some page => .ok (page, p)
    | none =>
      let diskPages :=
        p.fileLength / PAGE_SIZE + (if p.fileLength % PAGE_SIZE ≠ 0 then 1 else 0)
      let page : Page := fun i =>
        if pageNum < diskPages ∧ i < PAGE_SIZE ∧ pageNum * PAGE_SIZE + i < p.fileLength
        then p.file (pageNum * PAGE_SIZE + i) % 256
        else 0
      let p' := setPage p pageNum page
      let p' :=
        if pageNum ≥ p.numPages then { p' with numPages := pageNum + 1 } else p'
      .ok (page, p')

/-- `pagerOpen(filename)`: the file system is abstracted to the measured
file length and the file's bytes; OS-level open/stat failures are outside
the model.  `numPages` is the `uint32` cast of `fileLength / PAGE_SIZE`;
a length that is not a whole number of pages is a corrupt file; all cache
slots start empty. -/
def pagerOpen (fileLength : Nat) (file : Nat → Nat) : Res Pager :=
  let numPages := fileLength / PAGE_SIZE % 4294967296
  if fileLength % PAGE_SIZE ≠ 0 then .err .corruptFile
  else
    .ok { fileLength := fileLength, file := file, numPages := numPages,
          pages := fun _ => none }

/-- `dbOpen(filename)`: open the pager; on an empty file, fetch page 0,
make it an empty leaf and mark it the root. -/
def dbOpen (fileLength : Nat) (file : Nat → Nat) : Res Table := do
  let pager ← pagerOpen fileLength file
  let table : Table :=
    { rootPageNum := 0, pager := pager, ghostSplits := 0, ghostNewRoots := 0 }
  if pager.numPages = 0 then
    let (rootNode, pg) ← pager.getPage 0
    let rootNode := SetNodeRoot (initLeafNode rootNode) true
    return { table with pager := setPage pg 0 rootNode }
  else
    return table

/-- `getUnusedPageNum`: pages are appended at the end of the file. -/
def getUnusedPageNum (pager : Pager) : Nat := pager.numPages

/-- `getNodeMaxKey`: max key of a node; panics on an unknown kind byte. -/
def getNodeMaxKey (node : Page) : Res Nat :=
  if GetNodeType node = NODE_INTERNAL then
    .ok (InternalNodeKey node (InternalNodeNumKeys node - 1))
  else if GetNodeType node = NODE_LEAF then
    .ok (LeafNodeKey node (LeafNodeNumCells node - 1))
  else .abort .unknownNodeTypeMaxKey

/- B+-tree search. -/

/-- The binary-search loop of `leafNodeFind`: narrow `[lo, hi)` until an
exact match or `lo = hi` (the loop guard `onePastMaxIndex != minIndex`; the
callers establish `lo ≤ hi`, which every iteration preserves, so the guard
is `lo < hi`; see the note below on the `uint32` midpoint).  The recursion
is structural on a counter that starts at `hi - lo`: every iteration
shrinks `hi - lo` by at least one, so the counter never runs out before
the loop guard fails (`leafFindLoop` re-establishes this invariant). -/
def leafFindAux (keyAt : Nat → Nat) (key : Nat) : Nat → Nat → Nat → Nat
  | 0, lo, _ => lo
  | fuel + 1, lo, hi =>
    if lo < hi then
      if key = keyAt ((lo + hi) / 2) then (lo + hi) / 2
      else if key < keyAt ((lo + hi) / 2) then
        leafFindAux keyAt key fuel lo ((lo + hi) / 2)
      else leafFindAux keyAt key fuel ((lo + hi) / 2 + 1) hi
    else lo

/-- The loop entered from `minIndex = 0`, `onePastMaxIndex = hi`. -/
def leafFindLoop (keyAt : Nat → Nat) (key lo hi : Nat) : Nat :=
  leafFindAux keyAt key (hi - lo) lo hi

/-- The cell index `leafNodeFind` computes on a leaf page. -/
def leafNodeFindCell (node : Page) (key : Nat) : Nat :=
  leafFindLoop (LeafNodeKey node) key 0 (LeafNodeNumCells node)

/-
The two binary-search midpoints are `(min + max) / 2` in `uint32`
arithmetic in Go; the sum can only wrap for `2^31` or more cells, which
the 4096-byte page layout cannot hold (at most 13 leaf cells fit), so the
unwrapped midpoint above is exact on every representable node.
-/

/-- `leafNodeFind(table, pageNum, key)`. -/
def leafNodeFind (t : Table) (pageNum key : Nat) : Res (Cursor × Table) := do
  let (node, pg) ← t.pager.getPage pageNum
  return ({ pageNum := pageNum, cellNum := leafNodeFindCell node key,
            endOfTable := false },
          { t with pager := pg })

/-- The binary-search loop of `internalNodeFind`: smallest index whose key
is `≥ key`.  `uint32` midpoint as above. -/
def internalFindAux (keyAt : Nat → Nat) (key : Nat) : Nat → Nat → Nat → Nat
  | 0, lo, _ => lo
  | fuel + 1, lo, hi =>
    if lo < hi then
      if keyAt ((lo + hi) / 2) ≥ key then
        internalFindAux keyAt key fuel lo ((lo + hi) / 2)
      else internalFindAux keyAt key fuel ((lo + hi) / 2 + 1) hi
    else lo

/-- The loop entered from `minIdx = 0`, `maxIdx = hi` (same counter
argument as `leafFindLoop`). -/
def internalFindLoop (keyAt : Nat → Nat) (key lo hi : Nat) : Nat :=
  internalFindAux keyAt key (hi - lo) lo hi

/-- `internalNodeFind(table, pageNum, key)`, with fuel for the unbounded
descent (the Go recursion has no structural bound; the trees the program
builds have height at most 2, so any fuel ≥ 2 is ample). -/
def internalNodeFind (fuel : Nat) (t : Table) (pageNum key : Nat) :
    Res (Cursor × Table) := do
  match fuel with
  | 0 => .abort .outOfFuel
  | fuel + 1 =>
    let (node, pg) ← t.pager.getPage pageNum
    let t := { t with pager := pg }
    let numKeys := InternalNodeNumKeys node
    let minIdx := internalFindLoop (InternalNodeKey node) key 0 numKeys
    let childNum ← InternalNodeChild node minIdx
    let (child, pg2) ← t.pager.getPage childNum
    let t := { t with pager := pg2 }
    if GetNodeType child = NODE_LEAF then leafNodeFind t childNum key
    else if GetNodeType child = NODE_INTERNAL then
      internalNodeFind fuel t childNum key
    else .err .unknownNodeType

/-- `tableFind(table, key)`: descend from the root. -/
def tableFind (t : Table) (key : Nat) : Res (Cursor × Table) := do
  let (rootNode, pg) ← t.pager.getPage t.rootPageNum
  let t := { t with pager := pg }
  if GetNodeType rootNode = NODE_LEAF then leafNodeFind t t.rootPageNum key
  else internalNodeFind (TABLE_MAX_PAGES + 1) t t.rootPageNum key

/- B+-tree insert. -/

/-- The shift loop of `leafNodeInsert`,
`for i := numCells; i > cellNum; i--`, which copies cell `i-1` over cell
`i`: `shiftCellsDown p stop c` runs the iterations `i = stop + c` down to
`i = stop + 1` (the callers pass `c = numCells - cellNum`, `stop =
cellNum`, so the first index is `numCells` and the loop stops above
`cellNum`, exactly the Go bounds). -/
def shiftCellsDown (p : Page) (stop : Nat) : Nat → Page
  | 0 => p
  | c + 1 =>
    shiftCellsDown
      (copyRange p p (leafCellOff (stop + c + 1)) (leafCellOff (stop + c))
        LEAF_NODE_CELL_SIZE)
      stop c

/-- The page transformation of `leafNodeInsert`'s non-split path: make
room when the cursor is inside the cell array, bump `num_cells`, write the
key and the serialized row at the cursor's cell. -/
def leafInsertPage (node : Page) (cellNum key : Nat) (value : Row) : Page :=
  let numCells := LeafNodeNumCells node
  let node :=
    if cellNum < numCells then shiftCellsDown node cellNum (numCells - cellNum)
    else node
  let node := SetLeafNodeNumCells node (numCells + 1)
  let node := SetLeafNodeKey node cellNum key
  serializeRow value node (leafValueOff cellNum)

/-- One iteration (index `i`) of the split loop of
`leafNodeSplitAndInsert`: state is the pair (old page, new page); the
destination is the new node for `i ≥ LEAF_NODE_LEFT_SPLIT_COUNT`, at slot
`i % LEAF_NODE_LEFT_SPLIT_COUNT`; the new cell goes to `i = cellNum`,
cells above the cursor move from index `i-1`, cells below from `i`. -/
def splitStep (st : Page × Page) (cellNum key : Nat) (value : Row) (i : Nat) :
    Page × Page :=
  let (oldNode, newNode) := st
  let destIsNew := LEAF_NODE_LEFT_SPLIT_COUNT ≤ i
  let indexWithinNode := i % LEAF_NODE_LEFT_SPLIT_COUNT
  let write (dest : Page) : Page :=
    if i = cellNum then
      serializeRow value (SetLeafNodeKey dest indexWithinNode key)
        (leafValueOff indexWithinNode)
    else if cellNum < i then
      copyRange dest oldNode (leafCellOff indexWithinNode) (leafCellOff (i - 1))
        LEAF_NODE_CELL_SIZE
    else
      copyRange dest oldNode (leafCellOff indexWithinNode) (leafCellOff i)
        LEAF_NODE_CELL_SIZE
  if destIsNew then (oldNode, write newNode) else (write oldNode, newNode)

/-- The split loop, `for i := LEAF_NODE_MAX_CELLS; i >= 0; i--`:
`splitIter st (n+1)` runs index `n`, then `n-1`, …, then `0`. -/
def splitIter (cellNum key : Nat) (value : Row) :
    Nat → Page × Page → Page × Page
  | 0, st => st
  | c + 1, st => splitIter cellNum key value c (splitStep st cellNum key value c)

/-- `createNewRoot(table, rightChildPageNum)`: allocate a left child, copy
the old root into it, clear its root flag, rebuild page 0 in place as an
internal root with one key (the left child's max key) and the two
children, and set both children's parent pointers.  Bumps the ghost
root-promotion counter. -/
def createNewRoot (t : Table) (rightChildPageNum : Nat) : Res Table := do
  let t := { t with ghostNewRoots := t.ghostNewRoots + 1 }
  let (root, pg1) ← t.pager.getPage t.rootPageNum
  let (rightChild, pg2) ← pg1.getPage rightChildPageNum
  let leftChildPageNum := getUnusedPageNum pg2
  let (leftChild, pg3) ← pg2.getPage leftChildPageNum
  let leftChild := copyRange leftChild root 0 0 PAGE_SIZE
  let leftChild := SetNodeRoot leftChild false
  let root := SetNodeRoot (initInternalNode root) true
  let root := SetInternalNodeNumKeys root 1
  let root ← SetInternalNodeChild root 0 leftChildPageNum
  let leftChildMaxKey ← getNodeMaxKey leftChild
  let root := SetInternalNodeKey root 0 leftChildMaxKey
  let root := SetInternalNodeRightChild root rightChildPageNum
  let leftChild := setNodeParent leftChild t.rootPageNum
  let rightChild := setNodeParent rightChild t.rootPageNum
  let pg := setPage (setPage (setPage pg3 t.rootPageNum root)
    leftChildPageNum leftChild) rightChildPageNum rightChild
  return { t with pager := pg }

/-- `leafNodeSplitAndInsert(cursor, key, value)`.  Allocates the next page
as the new right leaf, redistributes the `MAX + 1` cells with the split
loop, sets both cell counts, and either promotes a new root (old leaf was
the root) or fails: updating a non-root parent is unimplemented.  Bumps
the ghost split counter. -/
def leafNodeSplitAndInsert (t : Table) (cursor : Cursor) (key : Nat)
    (value : Row) : Res Table := do
  let t := { t with ghostSplits := t.ghostSplits + 1 }
  let (oldNode, pg1) ← t.pager.getPage cursor.pageNum
  let newPageNum := getUnusedPageNum pg1
  let (newNode, pg2) ← pg1.getPage newPageNum
  let newNode := setNodeParent (initLeafNode newNode) (nodeParent oldNode)
  let (oldNode, newNode) :=
    splitIter cursor.cellNum key value (LEAF_NODE_MAX_CELLS + 1)
      (oldNode, newNode)
  let oldNode := SetLeafNodeNumCells oldNode LEAF_NODE_LEFT_SPLIT_COUNT
  let newNode := SetLeafNodeNumCells newNode LEAF_NODE_RIGHT_SPLIT_COUNT
  let pg := setPage (setPage pg2 cursor.pageNum oldNode) newPageNum newNode
  let t := { t with pager := pg }
  if IsNodeRoot oldNode then createNewRoot t newPageNum
  else .err .updateParentUnimplemented

/-- `leafNodeInsert(cursor, key, value)`: split when the leaf is full,
otherwise apply the in-place insert to the cursor's page. -/
def leafNodeInsert (t : Table) (cursor : Cursor) (key : Nat) (value : Row) :
    Res Table := do
  let (node, pg) ← t.pager.getPage cursor.pageNum
  let t := { t with pager := pg }
  let numCells := LeafNodeNumCells node
  if numCells ≥ LEAF_NODE_MAX_CELLS then
    leafNodeSplitAndInsert t cursor key value
  else
    let node := leafInsertPage node cursor.cellNum key value
    return { t with pager := setPage t.pager cursor.pageNum node }

/-- `ExecuteResult`. -/
inductive ExecuteResult where
  | success
  | duplicateKey
  | tableFull
  deriving DecidableEq, Repr

/-- `executeInsert(statement, table)`.  Reads the cell count and the
key-at-cursor for the duplicate check from the ROOT page (`node`), even
when the cursor from `tableFind` lands on a different (leaf) page of a
split tree.  Returned errors become `EXECUTE_TABLE_FULL` at this
boundary; panics propagate. -/
def executeInsert (t : Table) (rowToInsert : Row) : Res (ExecuteResult × Table) :=
  match t.pager.getPage t.rootPageNum with
  | .err _ => .ok (.tableFull, t)
  | .abort k => .abort k
  | .ok (node, pg) =>
    let t := { t with pager := pg }
    let numCells := LeafNodeNumCells node
    let keyToInsert := rowToInsert.id
    match tableFind t keyToInsert with
    | .err _ => .ok (.tableFull, t)
    | .abort k => .abort k
    | .ok (cursor, t) =>
      if cursor.cellNum < numCells ∧ LeafNodeKey node cursor.cellNum = keyToInsert
      then .ok (.duplicateKey, t)
      else
        match leafNodeInsert t cursor rowToInsert.id rowToInsert with
        | .err _ => .ok (.tableFull, t)
        | .abort k => .abort k
        | .ok t => .ok (.success, t)

/- The cursor scan. -/

/-- `tableStart(table)`: cursor at `(rootPageNum, 0)`; end-of-table iff
the root page's leaf cell count reads zero. -/
def tableStart (t : Table) : Res (Cursor × Table) := do
  let (rootNode, pg) ← t.pager.getPage t.rootPageNum
  let numCells := LeafNodeNumCells rootNode
  return ({ pageNum := t.rootPageNum, cellNum := 0, endOfTable := numCells = 0 },
          { t with pager := pg })

/-- `cursorValue(cursor)`: the page holding the cursor's slot (the slot is
`LeafNodeValue(page, cellNum)`, i.e. offset `leafValueOff cellNum`). -/
def cursorValue (t : Table) (cursor : Cursor) : Res (Page × Table) := do
  let (page, pg) ← t.pager.getPage cursor.pageNum
  return (page, { t with pager := pg })

/-- `cursorAdvance(cursor)`: increment `cellNum`; at or past the page's
cell count, set `endOfTable`. -/
def cursorAdvance (t : Table) (cursor : Cursor) : Res (Cursor × Table) := do
  let (node, pg) ← t.pager.getPage cursor.pageNum
  let cellNum := cursor.cellNum + 1
  let eot := if cellNum ≥ LeafNodeNumCells node then true else cursor.endOfTable
  return ({ cursor with cellNum := cellNum, endOfTable := eot },
          { t with pager := pg })

/-- The `select` scan loop (fuelled; `executeSelect` passes a fuel the
termination theorem proves sufficient).  A `cursorValue` error ends the
scan before a row is read; a `cursorAdvance` error ends it after the row
was emitted — exactly the `continue` / flag-setting of the Go loop.
`none` means the fuel ran out with the loop still running. -/
def selectLoop (t : Table) (cursor : Cursor) :
    Nat → Option (List Row × Table)
  | 0 => none
  | fuel + 1 =>
    if cursor.endOfTable then some ([], t)
    else
      match cursorValue t cursor with
      | .err _ => some ([], t)
      | .abort _ => some ([], t)
      | .ok (page, t) =>
        let row := deserializeRow page (leafValueOff cursor.cellNum)
        match cursorAdvance t cursor with
        | .err _ => some ([row], t)
        | .abort _ => some ([row], t)
        | .ok (cursor, t) =>
          match selectLoop t cursor fuel with
          | none => none
          | some (rows, t) => some (row :: rows, t)

/-- The page cached at slot `n` (zero page when the slot is empty). -/
def cachedPage (t : Table) (n : Nat) : Page :=
  match t.pager.pages n with
  | some p => p
  | none => zeroPage

/-- `executeSelect(statement, table)`: emitted rows in order.  A
`tableStart` error prints and yields no rows.  The scan loop gets fuel
`num_cells + 1`, read from the page the cursor starts on; the termination
theorem shows this never runs out. -/
def executeSelect (t : Table) : Option (List Row × Table) :=
  match tableStart t with
  | .err _ => some ([], t)
  | .abort _ => some ([], t)
  | .ok (cursor, t) =>
    selectLoop t cursor (LeafNodeNumCells (cachedPage t t.rootPageNum) + 1)

/-- The ids of the rows a `select` emits (shorthand for theorems). -/
def selectIds (t : Table) : List Nat :=
  match executeSelect t with
  | some (rows, _) => rows.map Row.id
  | none => []

/- Statement preparation (the tokenizer / `prepareInsert`). -/

/-- `PrepareResult`. -/
inductive PrepareResult where
  | success
  | syntaxError
  | negativeId
  | stringTooLong
  | unrecognized
  deriving DecidableEq, Repr

/-- Accumulator pass for `goFields`: `acc` holds the current word's
characters in reverse. -/
def goFieldsAux : List Char → List Char → List String
  | acc, [] => if acc.isEmpty then [] else [String.mk acc.reverse]
  | acc, c :: cs =>
    if c.isWhitespace then
      if acc.isEmpty then goFieldsAux [] cs
      else String.mk acc.reverse :: goFieldsAux [] cs
    else goFieldsAux (c :: acc) cs

/-- `strings.Fields`: the substrings between maximal whitespace runs (the
exercised inputs are ASCII, where Go's `unicode.IsSpace` and
`Char.isWhitespace` agree). -/
def goFields (s : String) : List String := goFieldsAux [] s.data

/-- The value of a maximal leading decimal-digit run, `none` without one. -/
def leadingDigitsVal (cs : List Char) : Option Nat :=
  let ds := cs.takeWhile Char.isDigit
  if ds.isEmpty then none
  else some (ds.foldl (fun a c => a * 10 + (c.toNat - 48)) 0)

/-- `fmt.Sscanf(token, "%d", &id)`: an optional sign then at least one
digit; trailing characters after the number are not an error for
`Sscanf`. -/
def goScanInt (s : String) : Option Int :=
  match s.data with
  | '-' :: rest => (leadingDigitsVal rest).map fun n => -(n : Int)
  | '+' :: rest => (leadingDigitsVal rest).map fun n => (n : Int)
  | cs => (leadingDigitsVal cs).map fun n => (n : Int)

/-- A string's bytes (the inputs exercised are ASCII, where Go's byte
length and this list's length agree). -/
def strBytes (s : String) : List Nat := s.data.map Char.toNat

/-- The all-zero row (Go's zero `Row` value, before `prepareInsert`
copies into it). -/
def emptyRow : Row :=
  { id := 0, username := List.replicate COLUMN_USERNAME_SIZE 0,
    email := List.replicate COLUMN_EMAIL_SIZE 0 }

/-- `prepareInsert(inputBuffer, statement)`: tokenize on whitespace;
fewer than 4 tokens is a syntax error; parse token 1 as a signed integer
(`uint32` cast on success); reject a negative id and over-long username
or email; extra tokens beyond the fourth are ignored. -/
def prepareInsert (line : String) : PrepareResult × Row :=
  let tokens := goFields line
  if tokens.length < 4 then (.syntaxError, emptyRow)
  else
    match goScanInt (tokens.getD 1 "") with
    | none => (.syntaxError, emptyRow)
    | some id =>
      if id < 0 then (.negativeId, emptyRow)
      else
        let username := tokens.getD 2 ""
        if COLUMN_USERNAME_SIZE < (strBytes username).length then
          (.stringTooLong, emptyRow)
        else
          let email := tokens.getD 3 ""
          if COLUMN_EMAIL_SIZE < (strBytes email).length then
            (.stringTooLong, emptyRow)
          else
            (.success,
             { id := id.toNat % 4294967296
               username := padTo COLUMN_USERNAME_SIZE (strBytes username)
               email := padTo COLUMN_EMAIL_SIZE (strBytes email) })

/- Concrete runs: a fresh database, ascending inserts 1..14, and the
duplicate insert that follows. -/

/-- The table `dbOpen` yields on a fresh (empty) file. -/
def freshTable : Table :=
  match dbOpen 0 (fun _ => 0) with
  | .ok t => t
  | _ => { rootPageNum := 0,
           pager := { fileLength := 0, file := fun _ => 0, numPages := 0,
                      pages := fun _ => none },
           ghostSplits := 0, ghostNewRoots := 0 }

/-- A row with the given id and all-NUL string fields (what
`insert <id> x y` carries, up to the string bytes, which play no role in
tree structure). -/
def mkRow (k : Nat) : Row :=
  { id := k, username := List.replicate COLUMN_USERNAME_SIZE 0,
    email := List.replicate COLUMN_EMAIL_SIZE 0 }

/-- Run a list of inserts left to right, collecting each statement's
`ExecuteResult`. -/
def insertAll (t : Table) : List Row → Res (List ExecuteResult × Table)
  | [] => .ok ([], t)
  | r :: rs => do
    let (res, t) ← executeInsert t r
    let (ress, t) ← insertAll t rs
    return (res :: ress, t)

/-- The run of scenario E: ids 1..14 inserted in ascending order into a
fresh table. -/
def run14 : Res (List ExecuteResult × Table) :=
  insertAll freshTable ((List.range 14).map fun i => mkRow (i + 1))

/-- The statement results of `run14`. -/
def run14Results : List ExecuteResult :=
  match run14 with
  | .ok (rs, _) => rs
  | _ => []

/-- The table after `run14`. -/
def S14 : Table :=
  match run14 with
  | .ok (_, t) => t
  | _ => freshTable

/-- After the split: re-insert id 2, whose key sits in the left leaf. -/
def dupRun : Res (ExecuteResult × Table) := executeInsert S14 (mkRow 2)

/-- The statement result of `dupRun`. -/
def dupResult : Option ExecuteResult :=
  match dupRun with
  | .ok (r, _) => some r
  | _ => none

/-- The table after `dupRun`. -/
def dupTable : Table :=
  match dupRun with
  | .ok (_, t) => t
  | _ => S14

/-- The keys of the first `n` cells of a leaf page. -/
def leafKeys (p : Page) (n : Nat) : List Nat :=
  (List.range n).map (LeafNodeKey p)

/-- The cursor `cursorAdvance` yields: `cellNum` incremented, and
`endOfTable` set once the new `cellNum` reaches `numCells` (shorthand for
the termination theorems). -/
def advancedCursor (c : Cursor) (numCells : Nat) : Cursor :=
  { c with
    cellNum := c.cellNum + 1
    endOfTable := if c.cellNum + 1 ≥ numCells then true else c.endOfTable }

/-- A two-cell leaf page with keys 3 and 5 (concrete witness input). -/
def twoKeyLeaf : Page :=
  SetLeafNodeKey (SetLeafNodeKey (SetLeafNodeNumCells zeroPage 2) 0 3) 1 5

/-- A table whose cache holds `twoKeyLeaf` at page 0 (concrete witness
input). -/
def twoKeyTable : Table :=
  { rootPageNum := 0
    pager := { fileLength := 0, file := fun _ => 0, numPages := 1,
               pages := fun j => if j = 0 then some twoKeyLeaf else none }
    ghostSplits := 0, ghostNewRoots := 0 }

/- Helper lemmas: pointwise evaluation of the byte-level operations. -/

theorem writeU32_at0 (p : Page) (off v : Nat) : writeU32 p off v off = v % 256 := by
  unfold writeU32
  rw [if_pos rfl]

theorem writeU32_at1 (p : Page) (off v : Nat) :
    writeU32 p off v (off + 1) = v / 256 % 256 := by
  unfold writeU32
  rw [if_neg (by omega), if_pos rfl]

theorem writeU32_at2 (p : Page) (off v : Nat) :
    writeU32 p off v (off + 2) = v / 65536 % 256 := by
  unfold writeU32
  rw [if_neg (by omega), if_neg (by omega), if_pos rfl]

theorem writeU32_at3 (p : Page) (off v : Nat) :
    writeU32 p off v (off + 3) = v / 16777216 % 256 := by
  unfold writeU32
  rw [if_neg (by omega), if_neg (by omega), if_neg (by omega), if_pos rfl]

theorem writeU32_out (p : Page) (off v i : Nat) (h : i < off ∨ off + 4 ≤ i) :
    writeU32 p off v i = p i := by
  unfold writeU32
  rw [if_neg (by omega), if_neg (by omega), if_neg (by omega), if_neg (by omega)]

theorem readU32_writeU32 (p : Page) (off v : Nat) :
    readU32 (writeU32 p off v) off = v % 4294967296 := by
  unfold readU32
  rw [writeU32_at0, writeU32_at1, writeU32_at2, writeU32_at3]
  omega

theorem readU32_congr (p q : Page) (off : Nat)
    (h : ∀ i, off ≤ i → i < off + 4 → p i = q i) :
    readU32 p off = readU32 q off := by
  unfold readU32
  rw [h off (by omega) (by omega), h (off + 1) (by omega) (by omega),
    h (off + 2) (by omega) (by omega), h (off + 3) (by omega) (by omega)]

theorem writeBytes_out (p : Page) (off : Nat) (bs : List Nat) (i : Nat)
    (h : i < off ∨ off + bs.length ≤ i) : writeBytes p off bs i = p i := by
  unfold writeBytes
  rw [if_neg (by omega)]

theorem writeBytes_in (p : Page) (off : Nat) (bs : List Nat) (i : Nat)
    (h1 : off ≤ i) (h2 : i < off + bs.length) :
    writeBytes p off bs i = bs.getD (i - off) 0 % 256 := by
  unfold writeBytes
  rw [if_pos ⟨h1, h2⟩]

theorem copyRange_out (dst src : Page) (dstOff srcOff len i : Nat)
    (h : i < dstOff ∨ dstOff + len ≤ i) :
    copyRange dst src dstOff srcOff len i = dst i := by
  unfold copyRange
  rw [if_neg (by omega)]

theorem copyRange_in (dst src : Page) (dstOff srcOff len i : Nat)
    (h1 : dstOff ≤ i) (h2 : i < dstOff + len) :
    copyRange dst src dstOff srcOff len i = src (srcOff + (i - dstOff)) := by
  unfold copyRange
  rw [if_pos ⟨h1, h2⟩]

theorem padTo_length (n : Nat) (l : List Nat) : (padTo n l).length = n := by
  unfold padTo
  simp only [List.length_append, List.length_take, List.length_replicate]
  omega

theorem padTo_of_length {n : Nat} {l : List Nat} (h : l.length = n) :
    padTo n l = l := by
  subst h
  simp [padTo]

theorem leafCellOff_eq (c : Nat) : leafCellOff c = 10 + c * 295 := rfl

/- Helper lemmas: `getPage` on an in-bounds page number. -/

theorem getPage_cached (p : Pager) (n : Nat) (P : Page)
    (hc : p.pages n = some P) (h : n < TABLE_MAX_PAGES) :
    p.getPage n = .ok (P, p) := by
  unfold Pager.getPage
  rw [if_neg (by unfold TABLE_MAX_PAGES at *; omega),
    if_neg (by unfold TABLE_MAX_PAGES at *; omega), hc]

theorem getPage_lt (p : Pager) (n : Nat) (h : n < TABLE_MAX_PAGES) :
    ∃ page p', p.getPage n = .ok (page, p') ∧ p'.pages n = some page := by
  cases hc : p.pages n with
  | some P => exact ⟨P, p, getPage_cached p n P hc h, hc⟩
  | none =>
    unfold Pager.getPage
    rw [if_neg (by unfold TABLE_MAX_PAGES at *; omega),
      if_neg (by unfold TABLE_MAX_PAGES at *; omega), hc]
    refine ⟨_, _, rfl, ?_⟩
    split <;> simp [setPage]

theorem getPage_ge (p : Pager) (n : Nat) (h : TABLE_MAX_PAGES ≤ n) :
    p.getPage n = .err .pageOutOfBounds ∨ p.getPage n = .abort .indexOutOfRange := by
  unfold Pager.getPage
  by_cases h2 : TABLE_MAX_PAGES < n
  · left
    rw [if_pos h2]
  · right
    rw [if_neg h2, if_pos h]

/- Claim theorems. -/

set_option maxRecDepth 100000 in
set_option maxRecDepth 100000 in
set_option maxRecDepth 100000 in
/-- Claim C1 (code_bug evidence): after the split built by inserting ids
1..14, re-inserting the existing id 2 is NOT rejected: `executeInsert`
reads the duplicate-check cell count and key from the root page — now an
internal node — instead of the leaf the cursor points to, so it returns
`EXECUTE_SUCCESS` and mutates the left leaf, which afterwards holds 8
cells with key 2 duplicated, violating "rejected with DuplicateKey and no
page mutated". -/
theorem executeInsert_duplicate_after_split_not_rejected :
    dupResult = some ExecuteResult.success ∧
    LeafNodeNumCells (cachedPage S14 2) = 7 ∧
    leafKeys (cachedPage S14 2) 7 = [1, 2, 3, 4, 5, 6, 7] ∧
    LeafNodeNumCells (cachedPage dupTable 2) = 8 ∧
    leafKeys (cachedPage dupTable 2) 8 = [1, 2, 2, 3, 4, 5, 6, 7] := by
  refine ⟨?_, ?_, ?_, ?_, ?_⟩ <;> decide

/-- Claim C2 (code_bug evidence): all 14 ascending inserts into a fresh
table are accepted, yet the following `select` does not emit ids 1..14:
`tableStart` leaves the cursor on the internal root and the scan reads it
as a leaf, emitting exactly one garbage row whose id is 2 — the root's
cell-0 child pointer — instead of the 14 accepted rows. -/
theorem executeSelect_after_split_emits_wrong_rows :
    run14Results = List.replicate 14 ExecuteResult.success ∧
    selectIds S14 = [2] ∧
    selectIds S14 ≠ [1, 2, 3, 4, 5, 6, 7, 8, 9, 10, 11, 12, 13, 14] := by
  refine ⟨?_, ?_, ?_⟩ <;> decide

/-- Claim C3: inserting ids 1..14 in ascending order into a fresh table
is fully accepted and triggers exactly one leaf split with exactly one
root promotion; afterwards page 0 is an internal root node with
`num_keys = 1` and key 7, its cell-0 child (page 2) is a leaf holding 7
cells with keys 1..7 in order, and its right child (page 1) is a leaf
holding 7 cells with keys 8..14 in order. -/
theorem insert14_split_structure :
    run14Results = List.replicate 14 ExecuteResult.success ∧
    S14.ghostSplits = 1 ∧ S14.ghostNewRoots = 1 ∧
    GetNodeType (cachedPage S14 0) = NODE_INTERNAL ∧
    IsNodeRoot (cachedPage S14 0) = true ∧
    InternalNodeNumKeys (cachedPage S14 0) = 1 ∧
    InternalNodeKey (cachedPage S14 0) 0 = 7 ∧
    InternalNodeChild (cachedPage S14 0) 0 = Res.ok 2 ∧
    InternalNodeRightChild (cachedPage S14 0) = 1 ∧
    GetNodeType (cachedPage S14 2) = NODE_LEAF ∧
    LeafNodeNumCells (cachedPage S14 2) = 7 ∧
    leafKeys (cachedPage S14 2) 7 = [1, 2, 3, 4, 5, 6, 7] ∧
    GetNodeType (cachedPage S14 1) = NODE_LEAF ∧
    LeafNodeNumCells (cachedPage S14 1) = 7 ∧
    leafKeys (cachedPage S14 1) 7 = [8, 9, 10, 11, 12, 13, 14] := by
  refine ⟨?_, ?_, ?_, ?_, ?_, ?_, ?_, ?_, ?_, ?_, ?_, ?_, ?_, ?_, ?_⟩ <;> decide

/-- Claim C4 (counterexample): at `page_num = TABLE_MAX_PAGES` the call
does not return a buffer — the `>` bounds check passes but indexing the
100-slot cache array aborts with a Go index-out-of-range panic. -/
theorem getPage_at_table_max_pages_aborts :
    freshTable.pager.getPage TABLE_MAX_PAGES = Res.abort AbortKind.indexOutOfRange := by
  rfl

/-- Claim C4 (amended): `get_page` fails with `PageOutOfBounds` exactly
when `page_num > TABLE_MAX_PAGES`; it returns a page buffer without error
exactly when `page_num < TABLE_MAX_PAGES`; at
`page_num = TABLE_MAX_PAGES` itself the bounds check passes but the index
into the 100-slot cache array is out of range and the process aborts. -/
theorem getPage_bounds (p : Pager) (n : Nat) :
    (p.getPage n).isPageOOB = decide (TABLE_MAX_PAGES < n) ∧
    (p.getPage n).isOk = decide (n < TABLE_MAX_PAGES) ∧
    (p.getPage n).isAbort = decide (n = TABLE_MAX_PAGES) := by
  rcases Nat.lt_trichotomy n TABLE_MAX_PAGES with h | h | h
  · rw [decide_eq_false (by omega), decide_eq_true h, decide_eq_false (by omega)]
    unfold Pager.getPage
    rw [if_neg (by omega), if_neg (by omega)]
    cases hp : p.pages n
    · exact ⟨rfl, rfl, rfl⟩
    · exact ⟨rfl, rfl, rfl⟩
  · subst h
    unfold Pager.getPage
    rw [if_neg (by omega), if_pos (by omega)]
    exact ⟨rfl, rfl, rfl⟩
  · rw [decide_eq_true h, decide_eq_false (by omega), decide_eq_false (by omega)]
    unfold Pager.getPage
    rw [if_pos h]
    exact ⟨rfl, rfl, rfl⟩

/-- Claim C7: `pagerOpen` fails with `CorruptFile` exactly when the file
length is not a whole number of 4096-byte pages; on success `num_pages`
is the `uint32` cast of `file_length / page_size` (equal to
`file_length / page_size` whenever the file is below the 16 TiB cast
boundary) and every cache slot starts empty. -/
theorem pagerOpen_spec (fl : Nat) (file : Nat → Nat) :
    (pagerOpen fl file = Res.err GoError.corruptFile ∨ fl % PAGE_SIZE = 0) ∧
    (fl % PAGE_SIZE ≠ 0 ∨
      ∃ pg, pagerOpen fl file = Res.ok pg ∧
        pg.numPages = fl / PAGE_SIZE % 4294967296 ∧
        (PAGE_SIZE * 4294967296 ≤ fl ∨ pg.numPages = fl / PAGE_SIZE) ∧
        pg.fileLength = fl ∧ (∀ i, pg.pages i = none)) := by
  by_cases h : fl % PAGE_SIZE = 0
  · refine ⟨Or.inr h,
      Or.inr ⟨{ fileLength := fl, file := file,
                numPages := fl / PAGE_SIZE % 4294967296, pages := fun _ => none },
        ?_, rfl, ?_, rfl, fun i => rfl⟩⟩
    · unfold pagerOpen
      rw [if_neg (by omega)]
    · by_cases h2 : PAGE_SIZE * 4294967296 ≤ fl
      · exact Or.inl h2
      · refine Or.inr ?_
        have hlt : fl / PAGE_SIZE < 4294967296 := by
          unfold PAGE_SIZE at *
          omega
        simp [Nat.mod_eq_of_lt hlt]
  · refine ⟨Or.inl ?_, Or.inl h⟩
    unfold pagerOpen
    rw [if_pos h]

/-- Claim C8 (counterexample): an insert line with five
whitespace-separated tokens is accepted by `prepareInsert` (the code only
rejects fewer than 4 tokens; extra tokens are ignored). -/
theorem prepareInsert_five_tokens_accepted :
    (goFields "insert 1 a b junk").length = 5 ∧
    (prepareInsert "insert 1 a b junk").1 = PrepareResult.success := by
  exact ⟨by decide, by decide⟩

/-- Claim C8 (amended): an insert statement is accepted at prepare time
only when its whitespace tokenization has AT LEAST 4 tokens; every line
with fewer than 4 tokens is rejected as a syntax error; tokens beyond the
fourth are ignored rather than rejected. -/
theorem prepareInsert_token_count (s : String) :
    (4 ≤ (goFields s).length ∨ (prepareInsert s).1 = PrepareResult.syntaxError) ∧
    ((prepareInsert s).1 ≠ PrepareResult.success ∨ 4 ≤ (goFields s).length) := by
  by_cases h : (goFields s).length < 4
  · constructor
    · right
      unfold prepareInsert
      rw [if_pos h]
    · left
      unfold prepareInsert
      rw [if_pos h]
      simp
  · exact ⟨Or.inl (by omega), Or.inr (by omega)⟩

/- Claim C6: the record codec round trip. -/

theorem range_map_getD (l : List Nat) :
    (List.range l.length).map (fun i => l.getD i 0) = l := by
  apply List.ext_getElem
  · simp
  · intro i h1 h2
    simp only [List.getElem_map, List.getElem_range]
    rw [List.getD_eq_getElem]

theorem serializeRow_deserializeRow (r : Row)
    (hid : r.id < 4294967296)
    (hu : r.username.length = COLUMN_USERNAME_SIZE)
    (he : r.email.length = COLUMN_EMAIL_SIZE)
    (hub : ∀ b ∈ r.username, b < 256)
    (heb : ∀ b ∈ r.email, b < 256) :
    deserializeRow (serializeRow r zeroPage 0) 0 = r := by
  obtain ⟨id, u, e⟩ := r
  simp only [COLUMN_USERNAME_SIZE] at hu
  simp only [COLUMN_EMAIL_SIZE] at he
  simp only at hid hub heb
  unfold deserializeRow serializeRow
  simp only [ID_OFFSET, USERNAME_OFFSET, EMAIL_OFFSET, ID_SIZE,
    COLUMN_USERNAME_SIZE, COLUMN_EMAIL_SIZE]
  norm_num
  refine ⟨?_, ?_, ?_⟩
  · rw [readU32_congr _ (writeU32 zeroPage 0 id) 0 ?_]
    · rw [readU32_writeU32]
      omega
    · intro i h1 h2
      rw [writeBytes_out _ _ _ _ (Or.inl (by omega)),
        writeBytes_out _ _ _ _ (Or.inl (by omega))]
  · apply List.ext_getElem
    · simp [hu]
    · intro i hi1 hi2
      simp only [List.getElem_map, List.getElem_range] at *
      have hi : i < 32 := by simpa using hi1
      rw [writeBytes_out _ _ _ _ (Or.inl (by omega)),
        writeBytes_in _ _ _ _ (by omega) (by rw [padTo_length]; omega)]
      have h4 : 4 + i - 4 = i := by omega
      rw [h4, padTo_of_length hu, List.getD_eq_getElem _ _ (by omega)]
      exact Nat.mod_eq_of_lt (hub _ (List.getElem_mem _))
  · apply List.ext_getElem
    · simp [he]
    · intro i hi1 hi2
      simp only [List.getElem_map, List.getElem_range] at *
      have hi : i < 255 := by simpa using hi1
      rw [writeBytes_in _ _ _ _ (by omega) (by rw [padTo_length]; omega)]
      have h36 : 36 + i - 36 = i := by omega
      rw [h36, padTo_of_length he, List.getD_eq_getElem _ _ (by omega)]
      exact Nat.mod_eq_of_lt (heb _ (List.getElem_mem _))

/-- Claim C6: serializing a record into a zeroed 291-byte buffer and
deserializing it back yields a record equal to the original in all three
fields — the id exactly, and the fixed-width NUL-padded string fields
both exactly and after trailing-NUL trimming.  (In the embedding both
functions are total; the hypotheses state exactly that the record is one
Go's `Row` can hold: a `uint32` id and fixed 32/255-byte fields.) -/
theorem serialize_deserialize_roundtrip (r : Row)
    (hid : r.id < 4294967296)
    (hu : r.username.length = COLUMN_USERNAME_SIZE)
    (he : r.email.length = COLUMN_EMAIL_SIZE)
    (hub : ∀ b ∈ r.username, b < 256)
    (heb : ∀ b ∈ r.email, b < 256) :
    (deserializeRow (serializeRow r zeroPage 0) 0).id = r.id ∧
    dropTrailingZeros (deserializeRow (serializeRow r zeroPage 0) 0).username =
      dropTrailingZeros r.username ∧
    dropTrailingZeros (deserializeRow (serializeRow r zeroPage 0) 0).email =
      dropTrailingZeros r.email ∧
    deserializeRow (serializeRow r zeroPage 0) 0 = r := by
  have main := serializeRow_deserializeRow r hid hu he hub heb
  exact ⟨by rw [main], by rw [main], by rw [main], main⟩

set_option maxRecDepth 100000 in
/-- Witness for claim C6: the round trip at the concrete row `mkRow 7`,
with every hypothesis discharged by evaluation. -/
theorem serialize_deserialize_roundtrip_witness :
    (mkRow 7).id < 4294967296 ∧
    (mkRow 7).username.length = COLUMN_USERNAME_SIZE ∧
    (mkRow 7).email.length = COLUMN_EMAIL_SIZE ∧
    (∀ b ∈ (mkRow 7).username, b < 256) ∧
    (∀ b ∈ (mkRow 7).email, b < 256) ∧
    deserializeRow (serializeRow (mkRow 7) zeroPage 0) 0 = mkRow 7 :=
  ⟨by decide, by decide, by decide, by decide, by decide,
   (serialize_deserialize_roundtrip (mkRow 7) (by decide) (by decide) (by decide)
      (by decide) (by decide)).2.2.2⟩

/- Claim C5: leaf binary search. -/

theorem leafFindAux_spec (keyAt : Nat → Nat) (key n : Nat)
    (asc : ∀ i j, i < j → j < n → keyAt i < keyAt j) :
    ∀ fuel lo hi, hi - lo ≤ fuel → lo ≤ hi → hi ≤ n →
      (∀ i, i < lo → keyAt i < key) →
      (∀ i, hi ≤ i → i < n → key < keyAt i) →
      leafFindAux keyAt key fuel lo hi ≤ n ∧
      (∀ i, i < leafFindAux keyAt key fuel lo hi → keyAt i < key) ∧
      (∀ i, leafFindAux keyAt key fuel lo hi ≤ i → i < n → key ≤ keyAt i) := by
  intro fuel
  induction fuel with
  | zero =>
    intro lo hi hf hlh hhn hlow hhigh
    have heq : lo = hi := by omega
    subst heq
    rw [leafFindAux]
    exact ⟨by omega, hlow, fun i hci hin => Nat.le_of_lt (hhigh i hci hin)⟩
  | succ fuel ih =>
    intro lo hi hf hlh hhn hlow hhigh
    rw [leafFindAux]
    by_cases hlt : lo < hi
    · rw [if_pos hlt]
      have hidx1 : lo ≤ (lo + hi) / 2 := by omega
      have hidx2 : (lo + hi) / 2 < hi := by omega
      by_cases heq : key = keyAt ((lo + hi) / 2)
      · rw [if_pos heq]
        refine ⟨by omega, ?_, ?_⟩
        · intro i hi2
          calc keyAt i < keyAt ((lo + hi) / 2) := asc i _ hi2 (by omega)
          _ = key := heq.symm
        · intro i hci hin
          rcases Nat.eq_or_lt_of_le hci with h | h
          · rw [← h]
            omega
          · exact Nat.le_of_lt (heq ▸ asc _ i h hin)
      · rw [if_neg heq]
        by_cases hkey : key < keyAt ((lo + hi) / 2)
        · rw [if_pos hkey]
          refine ih lo ((lo + hi) / 2) (by omega) (by omega) (by omega) hlow ?_
          intro i hge hin
          rcases Nat.eq_or_lt_of_le hge with h | h
          · rw [← h]
            exact hkey
          · exact Nat.lt_trans hkey (asc _ i h hin)
        · rw [if_neg hkey]
          have hgt : keyAt ((lo + hi) / 2) < key := by omega
          refine ih ((lo + hi) / 2 + 1) hi (by omega) (by omega) hhn ?_ hhigh
          intro i hi2
          rcases Nat.lt_or_ge i ((lo + hi) / 2) with h | h
          · exact Nat.lt_trans (asc i _ h (by omega)) hgt
          · have hie : i = (lo + hi) / 2 := by omega
            rw [hie]
            exact hgt
    · rw [if_neg hlt]
      have heq : lo = hi := by omega
      subst heq
      exact ⟨by omega, hlow, fun i hci hin => Nat.le_of_lt (hhigh i hci hin)⟩

/-- Claim C5: on a leaf page whose keys are strictly ascending (cached at
an in-bounds page number, with a representable cell count),
`leafNodeFind` returns a cursor on that page whose `cell_num` is at most
`num_cells`, every key before it is smaller than the probe and every key
from it on is at least the probe; in particular, when the probe key is
present the cursor sits exactly on its cell, and otherwise it sits on the
smallest index whose key exceeds the probe (`num_cells` when all keys are
smaller). -/
theorem leafNodeFind_spec (t : Table) (pageNum key : Nat) (node : Page)
    (hcache : t.pager.pages pageNum = some node)
    (hpn : pageNum < TABLE_MAX_PAGES)
    (_hmax : LeafNodeNumCells node ≤ LEAF_NODE_MAX_CELLS)
    (asc : ∀ i j, i < j → j < LeafNodeNumCells node →
      LeafNodeKey node i < LeafNodeKey node j) :
    leafNodeFind t pageNum key =
      Res.ok ({ pageNum := pageNum, cellNum := leafNodeFindCell node key,
                endOfTable := false }, t) ∧
    leafNodeFindCell node key ≤ LeafNodeNumCells node ∧
    (∀ i, i < leafNodeFindCell node key → LeafNodeKey node i < key) ∧
    (∀ i, leafNodeFindCell node key ≤ i → i < LeafNodeNumCells node →
      key ≤ LeafNodeKey node i) ∧
    (∀ i, i < LeafNodeNumCells node → LeafNodeKey node i = key →
      leafNodeFindCell node key = i) := by
  have hdef : leafNodeFindCell node key =
      leafFindAux (LeafNodeKey node) key (LeafNodeNumCells node) 0
        (LeafNodeNumCells node) := by
    unfold leafNodeFindCell leafFindLoop
    rw [Nat.sub_zero]
  obtain ⟨h1, h2, h3⟩ := leafFindAux_spec (LeafNodeKey node) key
    (LeafNodeNumCells node) asc (LeafNodeNumCells node) 0 (LeafNodeNumCells node)
    (by omega) (by omega) (by omega)
    (fun i h => absurd h (Nat.not_lt_zero i)) (fun i h1 h2 => absurd h2 (by omega))
  rw [hdef]
  refine ⟨?_, h1, h2, h3, ?_⟩
  · unfold leafNodeFind
    rw [getPage_cached t.pager pageNum node hcache hpn]
    rfl
  · intro i hin hkeyi
    rcases Nat.lt_trichotomy i (leafFindAux (LeafNodeKey node) key
      (LeafNodeNumCells node) 0 (LeafNodeNumCells node)) with h | h | h
    · have := h2 i h
      omega
    · omega
    · have hc : leafFindAux (LeafNodeKey node) key (LeafNodeNumCells node) 0
        (LeafNodeNumCells node) < LeafNodeNumCells node := by omega
      have hk1 := h3 _ (Nat.le_refl _) hc
      have hk2 := asc _ i h hin
      omega

/-- Witness for claim C5: the search for the absent key 4 on the two-key
leaf (keys 3 and 5), with every hypothesis discharged at that input. -/
theorem leafNodeFind_spec_witness :
    twoKeyTable.pager.pages 0 = some twoKeyLeaf ∧
    (0 : Nat) < TABLE_MAX_PAGES ∧
    LeafNodeNumCells twoKeyLeaf ≤ LEAF_NODE_MAX_CELLS ∧
    (∀ i j, i < j → j < LeafNodeNumCells twoKeyLeaf →
      LeafNodeKey twoKeyLeaf i < LeafNodeKey twoKeyLeaf j) ∧
    (leafNodeFind twoKeyTable 0 4 =
      Res.ok ({ pageNum := 0, cellNum := leafNodeFindCell twoKeyLeaf 4,
                endOfTable := false }, twoKeyTable) ∧
     leafNodeFindCell twoKeyLeaf 4 ≤ LeafNodeNumCells twoKeyLeaf ∧
     (∀ i, i < leafNodeFindCell twoKeyLeaf 4 → LeafNodeKey twoKeyLeaf i < 4) ∧
     (∀ i, leafNodeFindCell twoKeyLeaf 4 ≤ i → i < LeafNodeNumCells twoKeyLeaf →
       4 ≤ LeafNodeKey twoKeyLeaf i) ∧
     (∀ i, i < LeafNodeNumCells twoKeyLeaf → LeafNodeKey twoKeyLeaf i = 4 →
       leafNodeFindCell twoKeyLeaf 4 = i)) := by
  have asc : ∀ i j, i < j → j < LeafNodeNumCells twoKeyLeaf →
      LeafNodeKey twoKeyLeaf i < LeafNodeKey twoKeyLeaf j := by
    intro i j hij hj
    have h2 : LeafNodeNumCells twoKeyLeaf = 2 := by decide
    rw [h2] at hj
    interval_cases j
    · omega
    · interval_cases i
      · decide
  exact ⟨rfl, by decide, by decide, asc,
    leafNodeFind_spec twoKeyTable 0 4 twoKeyLeaf rfl (by decide) (by decide) asc⟩

/- Claim C9: the frame property of the non-split leaf insert. -/

theorem shiftCellsDown_spec (stop : Nat) :
    ∀ (c : Nat) (p : Page),
      (∀ j, j < leafCellOff (stop + 1) → shiftCellsDown p stop c j = p j) ∧
      (∀ j, leafCellOff (stop + c) + LEAF_NODE_CELL_SIZE ≤ j →
        shiftCellsDown p stop c j = p j) ∧
      (∀ k d, 1 ≤ k → k ≤ c → d < LEAF_NODE_CELL_SIZE →
        shiftCellsDown p stop c (leafCellOff (stop + k) + d) =
          p (leafCellOff (stop + k - 1) + d)) := by
  intro c
  induction c with
  | zero =>
    intro p
    rw [shiftCellsDown]
    exact ⟨fun j _ => rfl, fun j _ => rfl,
      fun k d h1 h2 _ => absurd h2 (by omega)⟩
  | succ c ih =>
    intro p
    obtain ⟨ih1, ih2, ih3⟩ := ih (copyRange p p (leafCellOff (stop + c + 1))
      (leafCellOff (stop + c)) LEAF_NODE_CELL_SIZE)
    have hstep : shiftCellsDown p stop (c + 1) =
        shiftCellsDown (copyRange p p (leafCellOff (stop + c + 1))
          (leafCellOff (stop + c)) LEAF_NODE_CELL_SIZE) stop c := by
      rw [shiftCellsDown]
    refine ⟨?_, ?_, ?_⟩
    · intro j hj
      rw [hstep, ih1 j hj, copyRange_out _ _ _ _ _ _ (Or.inl ?_)]
      simp only [leafCellOff_eq] at *
      omega
    · intro j hj
      rw [hstep, ih2 j ?_, copyRange_out _ _ _ _ _ _ (Or.inr ?_)] <;>
        simp only [leafCellOff_eq, LEAF_NODE_CELL_SIZE, LEAF_NODE_KEY_SIZE,
          LEAF_NODE_VALUE_SIZE, ROW_SIZE, ID_SIZE, COLUMN_USERNAME_SIZE,
          COLUMN_EMAIL_SIZE] at * <;> omega
    · intro k d h1 h2 hd
      rcases Nat.lt_or_ge k (c + 1) with hk | hk
      · rw [hstep, ih3 k d h1 (by omega) hd,
          copyRange_out _ _ _ _ _ _ (Or.inl ?_)]
        simp only [leafCellOff_eq, LEAF_NODE_CELL_SIZE, LEAF_NODE_KEY_SIZE,
          LEAF_NODE_VALUE_SIZE, ROW_SIZE, ID_SIZE, COLUMN_USERNAME_SIZE,
          COLUMN_EMAIL_SIZE] at hd ⊢
        omega
      · have hke : k = c + 1 := by omega
        subst hke
        rw [hstep, ih2 _ ?_, copyRange_in _ _ _ _ _ _ ?_ ?_]
        · have e : leafCellOff (stop + c) +
              (leafCellOff (stop + (c + 1)) + d - leafCellOff (stop + c + 1)) =
              leafCellOff (stop + (c + 1) - 1) + d := by
            simp only [leafCellOff_eq]
            omega
          rw [e]
        · simp only [leafCellOff_eq, LEAF_NODE_CELL_SIZE, LEAF_NODE_KEY_SIZE,
            LEAF_NODE_VALUE_SIZE, ROW_SIZE, ID_SIZE, COLUMN_USERNAME_SIZE,
            COLUMN_EMAIL_SIZE] at hd ⊢
          omega
        · simp only [leafCellOff_eq]
          omega
        · simp only [leafCellOff_eq, LEAF_NODE_CELL_SIZE, LEAF_NODE_KEY_SIZE,
            LEAF_NODE_VALUE_SIZE, ROW_SIZE, ID_SIZE, COLUMN_USERNAME_SIZE,
            COLUMN_EMAIL_SIZE] at hd ⊢
          omega

theorem insertCellWrites_out (q : Page) (cn key m : Nat) (row : Row) (j : Nat)
    (h1 : j < LEAF_NODE_NUM_CELLS_OFFSET ∨ LEAF_NODE_HEADER_SIZE ≤ j)
    (h2 : j < leafCellOff cn ∨ leafCellOff (cn + 1) ≤ j) :
    serializeRow row (SetLeafNodeKey (SetLeafNodeNumCells q m) cn key)
      (leafValueOff cn) j = q j := by
  simp only [LEAF_NODE_NUM_CELLS_OFFSET, COMMON_NODE_HEADER_SIZE,
    LEAF_NODE_HEADER_SIZE, leafCellOff_eq] at h1 h2
  unfold serializeRow SetLeafNodeKey SetLeafNodeNumCells leafValueOff
  simp only [ID_OFFSET, USERNAME_OFFSET, EMAIL_OFFSET, ID_SIZE,
    COLUMN_USERNAME_SIZE, COLUMN_EMAIL_SIZE, leafCellOff_eq,
    LEAF_NODE_KEY_SIZE, LEAF_NODE_NUM_CELLS_OFFSET, COMMON_NODE_HEADER_SIZE]
  rw [writeBytes_out _ _ _ _ (by rw [padTo_length]; omega),
    writeBytes_out _ _ _ _ (by rw [padTo_length]; omega),
    writeU32_out _ _ _ _ (by omega),
    writeU32_out _ _ _ _ (by omega),
    writeU32_out _ _ _ _ (by omega)]

theorem insertCellWrites_numCells (q : Page) (cn key m : Nat) (row : Row) :
    LeafNodeNumCells (serializeRow row
      (SetLeafNodeKey (SetLeafNodeNumCells q m) cn key) (leafValueOff cn)) =
      m % 4294967296 := by
  unfold LeafNodeNumCells
  rw [readU32_congr _ (writeU32 q LEAF_NODE_NUM_CELLS_OFFSET m)
    LEAF_NODE_NUM_CELLS_OFFSET ?_]
  · exact readU32_writeU32 q LEAF_NODE_NUM_CELLS_OFFSET m
  · intro i hi1 hi2
    simp only [LEAF_NODE_NUM_CELLS_OFFSET, COMMON_NODE_HEADER_SIZE] at hi1 hi2
    unfold serializeRow SetLeafNodeKey SetLeafNodeNumCells leafValueOff
    simp only [ID_OFFSET, USERNAME_OFFSET, EMAIL_OFFSET, ID_SIZE,
      COLUMN_USERNAME_SIZE, COLUMN_EMAIL_SIZE, leafCellOff_eq,
      LEAF_NODE_KEY_SIZE, LEAF_NODE_NUM_CELLS_OFFSET, COMMON_NODE_HEADER_SIZE]
    rw [writeBytes_out _ _ _ _ (by rw [padTo_length]; omega),
      writeBytes_out _ _ _ _ (by rw [padTo_length]; omega),
      writeU32_out _ _ _ _ (by omega),
      writeU32_out _ _ _ _ (by omega)]

theorem leafInsertCore_frame (Q p : Page) (n cellNum key : Nat) (row : Row)
    (hlt : n < 13) (hc : cellNum ≤ n)
    (f1 : ∀ j, j < leafCellOff cellNum → Q j = p j)
    (f2 : ∀ j, leafCellOff (n + 1) ≤ j → Q j = p j)
    (f3 : ∀ c d, cellNum < c → c ≤ n → d < LEAF_NODE_CELL_SIZE →
      Q (leafCellOff c + d) = p (leafCellOff (c - 1) + d)) :
    LeafNodeNumCells (serializeRow row
      (SetLeafNodeKey (SetLeafNodeNumCells Q (n + 1)) cellNum key)
      (leafValueOff cellNum)) = n + 1 ∧
    (∀ i, i < LEAF_NODE_NUM_CELLS_OFFSET →
      serializeRow row (SetLeafNodeKey (SetLeafNodeNumCells Q (n + 1)) cellNum key)
        (leafValueOff cellNum) i = p i) ∧
    (∀ i, LEAF_NODE_HEADER_SIZE ≤ i → i < leafCellOff cellNum →
      serializeRow row (SetLeafNodeKey (SetLeafNodeNumCells Q (n + 1)) cellNum key)
        (leafValueOff cellNum) i = p i) ∧
    (∀ i, leafCellOff (n + 1) ≤ i →
      serializeRow row (SetLeafNodeKey (SetLeafNodeNumCells Q (n + 1)) cellNum key)
        (leafValueOff cellNum) i = p i) ∧
    (∀ c d, cellNum < c → c ≤ n → d < LEAF_NODE_CELL_SIZE →
      serializeRow row (SetLeafNodeKey (SetLeafNodeNumCells Q (n + 1)) cellNum key)
        (leafValueOff cellNum) (leafCellOff c + d) =
        p (leafCellOff (c - 1) + d)) := by
  refine ⟨?_, ?_, ?_, ?_, ?_⟩
  · rw [insertCellWrites_numCells]
    exact Nat.mod_eq_of_lt (by omega)
  · intro i hi
    rw [insertCellWrites_out _ _ _ _ _ _ (Or.inl hi) (Or.inl ?_), f1 i ?_] <;>
      · simp only [LEAF_NODE_NUM_CELLS_OFFSET, COMMON_NODE_HEADER_SIZE,
          leafCellOff_eq] at *
        omega
  · intro i h10 hi
    rw [insertCellWrites_out _ _ _ _ _ _ (Or.inr h10) (Or.inl hi), f1 i hi]
  · intro i hi
    rw [insertCellWrites_out _ _ _ _ _ _ (Or.inr ?_) (Or.inr ?_), f2 i hi] <;>
      · simp only [LEAF_NODE_HEADER_SIZE, COMMON_NODE_HEADER_SIZE,
          leafCellOff_eq] at *
        omega
  · intro c d hcc hcn hd
    rw [insertCellWrites_out _ _ _ _ _ _ (Or.inr ?_) (Or.inr ?_),
      f3 c d hcc hcn hd] <;>
      · simp only [LEAF_NODE_HEADER_SIZE, COMMON_NODE_HEADER_SIZE,
          leafCellOff_eq, LEAF_NODE_CELL_SIZE, LEAF_NODE_KEY_SIZE,
          LEAF_NODE_VALUE_SIZE, ROW_SIZE, ID_SIZE, COLUMN_USERNAME_SIZE,
          COLUMN_EMAIL_SIZE] at *
        omega

set_option maxRecDepth 100000 in
/-- Claim C9: when `leafNodeInsert` runs its non-split path on a leaf
with `num_cells = n < 13` and a cursor cell `cellNum ≤ n`, the only bytes
of the page that change are the `num_cells` header field (set to `n + 1`)
and the cells at indices `cellNum` through `n`: the node-type byte, the
is-root byte and the parent pointer (bytes before offset 6), the cells
below `cellNum`, and every byte past cell `n` stay unchanged, and the
cells formerly at `cellNum..n-1` reappear shifted one slot right. -/
theorem leafNodeInsert_frame (p : Page) (n cellNum key : Nat) (row : Row)
    (hn : LeafNodeNumCells p = n) (hlt : n < LEAF_NODE_MAX_CELLS)
    (hc : cellNum ≤ n) :
    LeafNodeNumCells (leafInsertPage p cellNum key row) = n + 1 ∧
    (∀ i, i < LEAF_NODE_NUM_CELLS_OFFSET →
      leafInsertPage p cellNum key row i = p i) ∧
    (∀ i, LEAF_NODE_HEADER_SIZE ≤ i → i < leafCellOff cellNum →
      leafInsertPage p cellNum key row i = p i) ∧
    (∀ i, leafCellOff (n + 1) ≤ i → leafInsertPage p cellNum key row i = p i) ∧
    (∀ c d, cellNum < c → c ≤ n → d < LEAF_NODE_CELL_SIZE →
      leafInsertPage p cellNum key row (leafCellOff c + d) =
        p (leafCellOff (c - 1) + d)) := by
  have h13 : LEAF_NODE_MAX_CELLS = 13 := rfl
  rw [h13] at hlt
  by_cases hsh : cellNum < n
  · simp only [leafInsertPage, hn, if_pos hsh]
    obtain ⟨s1, s2, s3⟩ := shiftCellsDown_spec cellNum (n - cellNum) p
    refine leafInsertCore_frame _ p n cellNum key row hlt hc ?_ ?_ ?_
    · intro j hj
      refine s1 j ?_
      simp only [leafCellOff_eq] at *
      omega
    · intro j hj
      refine s2 j ?_
      have e : cellNum + (n - cellNum) = n := by omega
      rw [e]
      simp only [leafCellOff_eq, LEAF_NODE_CELL_SIZE, LEAF_NODE_KEY_SIZE,
        LEAF_NODE_VALUE_SIZE, ROW_SIZE, ID_SIZE, COLUMN_USERNAME_SIZE,
        COLUMN_EMAIL_SIZE] at *
      omega
    · intro c d hcc hcn hd
      have hs := s3 (c - cellNum) d (by omega) (by omega) hd
      have e1 : cellNum + (c - cellNum) = c := by omega
      rw [e1] at hs
      exact hs
  · have hce : cellNum = n := by omega
    simp only [leafInsertPage, hn, if_neg hsh]
    refine leafInsertCore_frame p p n cellNum key row hlt hc
      (fun j _ => rfl) (fun j _ => rfl) ?_
    intro c d hcc hcn hd
    omega

set_option maxRecDepth 100000 in
/-- Witness for claim C9: the non-split insert of key 4 at cell 1 of the
two-key leaf (2 cells, both hypotheses concrete). -/
theorem leafNodeInsert_frame_witness :
    LeafNodeNumCells twoKeyLeaf = 2 ∧ 2 < LEAF_NODE_MAX_CELLS ∧ (1 : Nat) ≤ 2 ∧
    (LeafNodeNumCells (leafInsertPage twoKeyLeaf 1 4 (mkRow 4)) = 3 ∧
     (∀ i, i < LEAF_NODE_NUM_CELLS_OFFSET →
       leafInsertPage twoKeyLeaf 1 4 (mkRow 4) i = twoKeyLeaf i) ∧
     (∀ i, LEAF_NODE_HEADER_SIZE ≤ i → i < leafCellOff 1 →
       leafInsertPage twoKeyLeaf 1 4 (mkRow 4) i = twoKeyLeaf i) ∧
     (∀ i, leafCellOff 3 ≤ i →
       leafInsertPage twoKeyLeaf 1 4 (mkRow 4) i = twoKeyLeaf i) ∧
     (∀ c d, 1 < c → c ≤ 2 → d < LEAF_NODE_CELL_SIZE →
       leafInsertPage twoKeyLeaf 1 4 (mkRow 4) (leafCellOff c + d) =
         twoKeyLeaf (leafCellOff (c - 1) + d))) :=
  ⟨by decide, by decide, by decide,
   leafNodeInsert_frame twoKeyLeaf 2 1 4 (mkRow 4) (by decide) (by decide)
     (by decide)⟩

/- Claim C10: termination of the select scan. -/

theorem cursorValue_cached (t : Table) (c : Cursor) (P : Page)
    (h : t.pager.pages c.pageNum = some P) (hlt : c.pageNum < TABLE_MAX_PAGES) :
    cursorValue t c = Res.ok (P, t) := by
  unfold cursorValue
  rw [getPage_cached t.pager c.pageNum P h hlt]
  rfl

theorem cursorAdvance_cached (t : Table) (c : Cursor) (P : Page)
    (h : t.pager.pages c.pageNum = some P) (hlt : c.pageNum < TABLE_MAX_PAGES) :
    cursorAdvance t c = Res.ok (advancedCursor c (LeafNodeNumCells P), t) := by
  unfold cursorAdvance advancedCursor
  rw [getPage_cached t.pager c.pageNum P h hlt]
  rfl

theorem selectLoop_total (P : Page) :
    ∀ (fuel : Nat) (t : Table) (c : Cursor),
      c.pageNum < TABLE_MAX_PAGES →
      t.pager.pages c.pageNum = some P →
      (c.endOfTable = false → c.cellNum < LeafNodeNumCells P) →
      LeafNodeNumCells P - c.cellNum < fuel →
      (selectLoop t c fuel).isSome = true := by
  intro fuel
  induction fuel with
  | zero =>
    intro t c hpn hcache hinv hf
    exact absurd hf (by omega)
  | succ fuel ih =>
    intro t c hpn hcache hinv hf
    rw [selectLoop]
    cases hc : c.endOfTable with
    | true =>
      simp only [hc]
      rfl
    | false =>
      simp only [hc, Bool.false_eq_true, if_false,
        cursorValue_cached t c P hcache hpn,
        cursorAdvance_cached t c P hcache hpn]
      have hcn : c.cellNum < LeafNodeNumCells P := hinv hc
      have hrec := ih t (advancedCursor c (LeafNodeNumCells P)) hpn hcache ?_ ?_
      · cases hsel : selectLoop t (advancedCursor c (LeafNodeNumCells P)) fuel with
        | none =>
          rw [hsel] at hrec
          exact absurd hrec (by simp)
        | some v =>
          cases v
          rfl
      · intro heot
        unfold advancedCursor at heot ⊢
        simp only at heot ⊢
        by_cases hge : c.cellNum + 1 ≥ LeafNodeNumCells P
        · rw [if_pos hge] at heot
          cases heot
        · omega
      · unfold advancedCursor
        simp only
        omega

theorem tableStart_lt (t : Table) (h : t.rootPageNum < TABLE_MAX_PAGES) :
    ∃ P t', tableStart t =
        Res.ok ({ pageNum := t.rootPageNum, cellNum := 0,
                  endOfTable := decide (LeafNodeNumCells P = 0) }, t') ∧
      t'.pager.pages t.rootPageNum = some P ∧ t'.rootPageNum = t.rootPageNum := by
  obtain ⟨P, p', hgp, hcache⟩ := getPage_lt t.pager t.rootPageNum h
  refine ⟨P, { t with pager := p' }, ?_, hcache, rfl⟩
  unfold tableStart
  rw [hgp]
  rfl

theorem executeSelect_isSome (t : Table) : (executeSelect t).isSome = true := by
  by_cases h : t.rootPageNum < TABLE_MAX_PAGES
  · obtain ⟨P, t', hts, hcache, hroot⟩ := tableStart_lt t h
    unfold executeSelect
    simp only [hts]
    have hcp : cachedPage t' t'.rootPageNum = P := by
      unfold cachedPage
      rw [hroot, hcache]
    rw [hcp]
    refine selectLoop_total P _ t' _ ?_ ?_ ?_ ?_ <;> dsimp only
    · exact h
    · exact hcache
    · intro heot
      simp only [decide_eq_false_iff_not] at heot
      omega
    · omega
  · unfold executeSelect
    rcases getPage_ge t.pager t.rootPageNum (by omega) with hgp | hgp <;>
      · unfold tableStart
        rw [hgp]
        rfl

/-- Claim C10: the select scan terminates on every table state.  The
cursor `tableStart` creates sits on page 0 and `cursorAdvance` never
changes its page number, strictly increments `cell_num`, and sets
`end_of_table` once `cell_num` reaches the page's `num_cells` field (this
is `advancedCursor`); consequently `executeSelect`, whose scan loop runs
on fuel `num_cells + 1` — one check more than the loop's maximum number
of iterations — always completes instead of exhausting its fuel. -/
theorem select_scan_terminates :
    (∀ (t : Table) (cn : Nat) (eot : Bool), ∃ page t',
      t.pager.getPage 0 = Res.ok (page, t'.pager) ∧
      cursorAdvance t { pageNum := 0, cellNum := cn, endOfTable := eot } =
        Res.ok (advancedCursor { pageNum := 0, cellNum := cn, endOfTable := eot }
          (LeafNodeNumCells page), t')) ∧
    (∀ t : Table, (executeSelect t).isSome = true) := by
  constructor
  · intro t cn eot
    obtain ⟨page, p', hgp, _⟩ := getPage_lt t.pager 0 (by decide)
    refine ⟨page, { t with pager := p' }, hgp, ?_⟩
    unfold cursorAdvance advancedCursor
    rw [hgp]
    rfl
  · exact executeSelect_isSome
